import Mathlib

/-!
Verification of the occam-api streaming-subscription optimizer.

This file gives a shallow embedding of the data model, the provider
conversion functions, the cache composition, the availability batcher and
the subscription-set optimizer of the repository, and proves the stated
properties about them.  Machine floating-point costs are modelled as
rationals; the per-weight integer-programming solve is modelled as an
exact minimizer over all subsets of the service catalog, and the
asynchronous writer loop is modelled as a function over the finite
sequence of channel events it consumes.
-/

set_option linter.unusedVariables false

/-- Identifier for a title: either an IMDB ID or a Watchmode-specific ID
(src/models/mod.rs, enum TitleId). -/
inductive TitleId where
  | Imdb (id : String)
  | Watchmode (id : Nat)
deriving DecidableEq, Repr

/-- Display form of a TitleId: the inner value (src/models/mod.rs, impl Display). -/
def TitleId.display : TitleId → String
  | .Imdb id => id
  | .Watchmode id => toString id

/-- Title kind (src/models/mod.rs, enum TitleType). -/
inductive TitleType where
  | Movie
  | Series
deriving DecidableEq, Repr

/-- Canonical title returned to the client (src/models/mod.rs, struct Title). -/
structure Title where
  id : TitleId
  title : String
  titleType : TitleType
  releaseYear : Option Int
  overview : Option String
deriving DecidableEq, Repr

/-- Raw search DTO of the Streaming Availability API
(src/models/mod.rs, struct ApiShow). -/
structure ApiShow where
  id : String
  imdbId : Option String
  title : String
  showType : String
  overview : Option String
  releaseYear : Option Int
  firstAirYear : Option Int
deriving DecidableEq, Repr

/-- Conversion of an ApiShow DTO into a canonical Title
(src/models/mod.rs, the From ApiShow impl for Title). -/
def Title.ofApiShow (show_ : ApiShow) : Title :=
  let titleType : TitleType :=
    match show_.showType with
    | "movie" => .Movie
    | "series" => .Series
    | _ => .Movie
  let id : TitleId :=
    match show_.imdbId with
    | some imdbId => .Imdb imdbId
    | none => .Imdb show_.id
  { id := id
    title := show_.title
    titleType := titleType
    releaseYear := show_.releaseYear.or show_.firstAirYear
    overview := show_.overview }

/-- Watchmode autocomplete search DTO (src/models/mod.rs, struct WatchmodeTitle). -/
structure WatchmodeTitle where
  id : Nat
  name : String
  titleType : String
  year : Option Nat
  imdbId : Option String
deriving DecidableEq, Repr

/-- Conversion of a WatchmodeTitle DTO into a canonical Title
(src/models/mod.rs, the From WatchmodeTitle impl for Title).  The Watchmode
ID is always preferred, even when an IMDB id is present. -/
def Title.ofWatchmodeTitle (watchmode : WatchmodeTitle) : Title :=
  let titleType : TitleType :=
    match watchmode.titleType with
    | "movie" => .Movie
    | "tv_series" => .Series
    | _ => .Movie
  { id := .Watchmode watchmode.id
    title := watchmode.name
    titleType := titleType
    releaseYear := watchmode.year.map (fun y => (y : Int))
    overview := none }

/-- Mode in which a title is available on a service
(src/models/mod.rs, enum AvailabilityType). -/
inductive AvailabilityType where
  | Subscription
  | Rent
  | Buy
  | Free
  | Addon
deriving DecidableEq, Repr

/-- Availability details for one service (src/models/mod.rs, struct ServiceAvailability). -/
structure ServiceAvailability where
  serviceId : String
  serviceName : String
  availabilityType : AvailabilityType
  quality : Option String
  link : Option String
deriving DecidableEq, Repr

/-- Streaming availability for a single title
(src/models/mod.rs, struct StreamingAvailability).  The wall-clock
timestamp is modelled as a Nat supplied by the caller. -/
structure StreamingAvailability where
  id : TitleId
  services : List ServiceAvailability
  cachedAt : Nat
deriving DecidableEq, Repr

/-- Application errors (src/error.rs, enum AppError).  The variants that
carry foreign error types are modelled with their message strings. -/
inductive AppError where
  | Database (msg : String)
  | CacheErr (msg : String)
  | HttpClient (msg : String)
  | NotFound (msg : String)
  | InvalidInput (msg : String)
  | ExternalApi (msg : String)
  | Optimization (msg : String)
  | Internal (msg : String)
deriving DecidableEq, Repr

deriving instance DecidableEq for Except

/-- Cache key kinds (src/db/redis/cache.rs, enum CacheKey). -/
inductive CacheKey where
  | TitleSearch (query : String)
  | Availability (id : String)
  | ImdbToWatchmode (imdbId : String)
deriving DecidableEq, Repr

/-- Wire form of a cache key (src/db/redis/cache.rs, impl Display for CacheKey). -/
def CacheKey.display : CacheKey → String
  | .TitleSearch query => "search:" ++ query.toLower
  | .Availability id => "avail:" ++ id
  | .ImdbToWatchmode imdbId => "imdb2wm:" ++ imdbId

/-- Message for asynchronous cache writes
(src/db/redis/cache.rs, struct CacheWriteMessage). -/
structure CacheWriteMessage where
  key : String
  value : String
  ttl : Nat
deriving DecidableEq, Repr

/-- The read-through cache composition (src/db/redis/macros.rs, the cached
macro).  The remote read and the compute step are given by their outcomes;
the result is the value returned to the caller together with the list of
set_in_background calls made (key, value, ttl). -/
def cachedCall {V : Type} (cacheRead : Except AppError (Option V))
    (compute : Except AppError V) (key : CacheKey) (ttl : Nat) :
    Except AppError V × List (CacheKey × V × Nat) :=
  match cacheRead with
  | .error e => (.error e, [])
  | .ok (some cachedValue) => (.ok cachedValue, [])
  | .ok none =>
    match compute with
    | .error e => (.error e, [])
    | .ok value => (.ok value, [(key, value, ttl)])

/-- Events consumed by the cache writer task: an accepted write message or
the shutdown signal (src/db/redis/cache.rs, cache_writer_task). -/
inductive WriterEvent where
  | msg (m : CacheWriteMessage)
  | signal
deriving DecidableEq, Repr

/-- The post-signal flush of cache_writer_task: every remaining message in
the channel receives a write attempt; failures are only logged
(src/db/redis/cache.rs, lines 117-123). -/
def drainFlush (write : CacheWriteMessage → Bool) :
    List CacheWriteMessage → List (CacheWriteMessage × Bool)
  | [] => []
  | m :: rest => (m, write m) :: drainFlush write rest

/-- Messages among a list of writer events. -/
def messagesOf : List WriterEvent → List CacheWriteMessage
  | [] => []
  | .msg m :: rest => m :: messagesOf rest
  | .signal :: rest => messagesOf rest

/-- The cache writer loop (src/db/redis/cache.rs, cache_writer_task),
modelled over the finite sequence of events it consumes.  Before the
shutdown signal each received message gets a write attempt (the Bool
records remote-store success); on the signal the loop drains every
remaining channel message and then exits (the function returns).  The
returned list is the trace of attempted writes. -/
def cacheWriterTask (write : CacheWriteMessage → Bool) :
    List WriterEvent → List (CacheWriteMessage × Bool)
  | [] => []
  | .msg m :: rest => (m, write m) :: cacheWriterTask write rest
  | .signal :: rest => drainFlush write (messagesOf rest)

/-- Service descriptor inside a Streaming Availability API option
(src/models/mod.rs, struct ApiService). -/
structure ApiService where
  id : String
  name : String
deriving DecidableEq, Repr

/-- One streaming option of the Streaming Availability API details DTO
(src/models/mod.rs, struct ApiStreamingOption). -/
structure ApiStreamingOption where
  service : ApiService
  availabilityType : String
  quality : Option String
  link : Option String
deriving DecidableEq, Repr

/-- Details DTO of GET /shows/:id (src/models/mod.rs, struct ApiShowDetails).
The country-keyed map of streaming options is an association list. -/
structure ApiShowDetails where
  imdbId : Option String
  streamingOptions : List (String × List ApiStreamingOption)
deriving DecidableEq, Repr

/-- Availability-type strings accepted by the direct-IMDB provider; the
match arms of src/services/providers/streaming_availability.rs lines 53-60
(unknown strings are skipped). -/
def saParseAvailabilityType : String → Option AvailabilityType
  | "subscription" => some .Subscription
  | "rent" => some .Rent
  | "buy" => some .Buy
  | "free" => some .Free
  | "addon" => some .Addon
  | _ => none

/-- DTO conversion of the direct-IMDB provider
(src/services/providers/streaming_availability.rs, convert_api_response).
Fails when the DTO lacks an IMDB id; only the "us" bucket is read; options
with unknown availability types are skipped. -/
def convertApiResponse (details : ApiShowDetails) (now : Nat) :
    Except AppError StreamingAvailability :=
  match details.imdbId with
  | none => .error (.ExternalApi "API response missing IMDB ID")
  | some imdbId =>
    let services : List ServiceAvailability :=
      match details.streamingOptions.lookup "us" with
      | none => []
      | some usOptions =>
        usOptions.filterMap fun option =>
          (saParseAvailabilityType option.availabilityType).map fun availabilityType =>
            { serviceId := option.service.id
              serviceName := option.service.name
              availabilityType := availabilityType
              quality := option.quality
              link := option.link }
    .ok { id := .Imdb imdbId, services := services, cachedAt := now }

/-- Cache TTL for availability entries (one week), shared by both providers. -/
def AVAIL_CACHE_TTL : Nat := 604800

/-- fetch_availability of the direct-IMDB provider
(src/services/providers/streaming_availability.rs, lines 128-166): the
cached composition around the API fetch followed by convert_api_response.
The cache read and the HTTP fetch are given by their outcomes. -/
def saFetchAvailability (titleId : TitleId)
    (cacheRead : Except AppError (Option StreamingAvailability))
    (apiOutcome : Except AppError ApiShowDetails) (now : Nat) :
    Except AppError StreamingAvailability :=
  (cachedCall cacheRead (apiOutcome.bind fun details => convertApiResponse details now)
    (CacheKey.Availability titleId.display) AVAIL_CACHE_TTL).1

/-- Watchmode source entry (src/models/mod.rs, struct WatchmodeSource). -/
structure WatchmodeSource where
  sourceId : Nat
  name : String
  webUrl : Option String
  sourceType : String
  format : Option String
deriving DecidableEq, Repr

/-- Watchmode details DTO (src/models/mod.rs, struct WatchmodeTitleDetails). -/
structure WatchmodeTitleDetails where
  sources : Option (List WatchmodeSource)
deriving DecidableEq, Repr

/-- Cast of a u64 to an i32 as performed by map_service_id
(src/services/providers/watchmode.rs, line 97). -/
def asI32 (n : Nat) : Int :=
  let m : Nat := n % 2 ^ 32
  if m < 2 ^ 31 then (m : Int) else (m : Int) - 2 ^ 32

/-- Service-id mapping of the Watchmode provider
(src/services/providers/watchmode.rs, map_service_id): the startup-loaded
table keyed by the Watchmode service id. -/
def mapServiceId (serviceMappings : List (Int × String × String))
    (watchmodeId : Nat) : Option (String × String) :=
  serviceMappings.lookup (asI32 watchmodeId)

/-- Availability-type strings accepted by the Watchmode provider,
case-insensitively (src/services/providers/watchmode.rs,
parse_availability_type). -/
def parseAvailabilityType (sourceType : String) : Option AvailabilityType :=
  match sourceType.toLower with
  | "sub" => some .Subscription
  | "subscription" => some .Subscription
  | "rent" => some .Rent
  | "buy" => some .Buy
  | "purchase" => some .Buy
  | "free" => some .Free
  | "addon" => some .Addon
  | _ => none

/-- Construction of the StreamingAvailability of the Watchmode provider
(src/services/providers/watchmode.rs, build_availability_from_details).
Sources with unmapped service ids or unknown types are skipped; the id of
the result is the originally requested TitleId. -/
def buildAvailabilityFromDetails (serviceMappings : List (Int × String × String))
    (requestedId : TitleId) (watchmodeId : Nat)
    (details : WatchmodeTitleDetails) (now : Nat) : StreamingAvailability :=
  let services : List ServiceAvailability :=
    match details.sources with
    | none => []
    | some sources =>
      sources.filterMap fun source =>
        match mapServiceId serviceMappings source.sourceId with
        | none => none
        | some (serviceId, serviceName) =>
          (parseAvailabilityType source.sourceType).map fun availabilityType =>
            { serviceId := serviceId
              serviceName := serviceName
              availabilityType := availabilityType
              quality := source.format
              link := source.webUrl }
  { id := requestedId, services := services, cachedAt := now }

/-- The parallel availability batcher (src/services/providers/mod.rs,
fetch_availability_batch, default trait implementation).  Each per-title
task outcome is given by the fetch function (a task-join failure is an
Internal error outcome); successes are aggregated, failures are logged,
and only the all-failed case surfaces an error. -/
def fetchAvailabilityBatch (fetch : TitleId → Except AppError StreamingAvailability)
    (titleIds : List TitleId) : Except AppError (List StreamingAvailability) :=
  let outcomes := titleIds.map fetch
  let results := outcomes.filterMap fun outcome =>
    match outcome with
    | .ok availability => some availability
    | .error _ => none
  let errors := outcomes.filterMap fun outcome =>
    match outcome with
    | .ok _ => none
    | .error e => some e
  if results.isEmpty && !errors.isEmpty then
    .error (.ExternalApi "Failed to fetch any availability data")
  else
    .ok results

/-! The subscription-set optimizer (src/services/optimization.rs).  This
module of the source keys titles by plain IMDB-id strings and carries its
own availability struct with an imdb_id field.  The per-weight
integer-programming solve is modelled as an exact minimizer of the
objective over all subsets of the service catalog, per the stated
formulation: binary selection variables, at-least-one coverage constraints
for every available must-have title, and the weighted cost-minus-bonus
objective. -/

/-- A streaming service with pricing (src/models, struct StreamingService
as used by the optimizer). -/
structure StreamingService where
  id : String
  name : String
  monthlyCost : ℚ
deriving DecidableEq, Repr

/-- Optimization request (src/models, struct OptimizationRequest as used
by src/services/optimization.rs: title ids are strings). -/
structure OptimizationRequest where
  mustHave : List String
  niceToHave : List String
deriving DecidableEq, Repr

/-- A candidate subscription bundle (src/models, struct ServiceConfiguration). -/
structure ServiceConfiguration where
  services : List StreamingService
  totalCost : ℚ
  mustHaveCoverage : Nat
  niceToHaveCoverage : Nat
deriving DecidableEq, Repr

/-- Optimizer response (src/models, struct OptimizationResponse). -/
structure OptimizationResponse where
  configurations : List ServiceConfiguration
  unavailableMustHave : List String
  unavailableNiceToHave : List String
deriving DecidableEq, Repr

/-- Service catalog entry with pricing (src/services/optimization.rs,
struct ServiceInfo). -/
structure ServiceInfo where
  id : String
  name : String
  cost : ℚ
deriving DecidableEq, Repr

/-- Availability struct consumed by the optimizer
(src/services/optimization.rs uses a StreamingAvailability keyed by an
imdb_id string field). -/
structure OptStreamingAvailability where
  imdbId : String
  services : List ServiceAvailability
  cachedAt : Nat
deriving DecidableEq, Repr

/-- Catalog row of the streaming_services table read by
fetch_service_pricing (src/services/optimization.rs, lines 175-185). -/
structure DbServiceRow where
  id : String
  name : String
  baseMonthlyCost : ℚ
  active : Bool
deriving DecidableEq, Repr

/-- Subscription-type service ids of one availability entry, in order
(src/services/optimization.rs, lines 144-150). -/
def subscriptionServiceIds (availability : OptStreamingAvailability) : List String :=
  (availability.services.filter fun s => s.availabilityType == .Subscription).map
    fun s => s.serviceId

/-- The title-to-services map built by build_service_mappings
(src/services/optimization.rs, lines 140-155): titles with no
subscription-type service are not inserted; a later entry for the same
title shadows an earlier one, as with HashMap insertion. -/
def buildTitleToServices (availabilityData : List OptStreamingAvailability) :
    List (String × List String) :=
  availabilityData.foldl
    (fun m availability =>
      let servicesForTitle := subscriptionServiceIds availability
      if servicesForTitle.isEmpty then m else (availability.imdbId, servicesForTitle) :: m)
    []

/-- The set of unique subscription service ids across all availability
entries (src/services/optimization.rs, service_ids_set). -/
def serviceIdsSet (availabilityData : List OptStreamingAvailability) : List String :=
  (availabilityData.flatMap subscriptionServiceIds).dedup

/-- fetch_service_pricing (src/services/optimization.rs, lines 164-217):
active catalog rows whose id is among the collected service ids. -/
def fetchServicePricing (db : List DbServiceRow) (serviceIds : List String) :
    List ServiceInfo :=
  if serviceIds.isEmpty then []
  else
    (db.filter fun row => row.active && serviceIds.contains row.id).map fun row =>
      { id := row.id, name := row.name, cost := row.baseMonthlyCost }

/-- Internal solution structure (src/services/optimization.rs, struct Solution). -/
structure Solution where
  services : List StreamingService
  totalCost : ℚ
  mustHaveCoverage : Nat
  niceToHaveCoverage : Nat
deriving DecidableEq, Repr

/-- Lexicographic comparison of char lists by scalar value: the order in
which Rust sorts the service-id strings. -/
def charListLe : List Char → List Char → Bool
  | [], _ => true
  | _ :: _, [] => false
  | a :: as, b :: bs =>
    if a.val < b.val then true
    else if b.val < a.val then false
    else charListLe as bs

/-- Byte-wise string order used by the ids.sort() call of
Solution::signature. -/
def strLe (a b : String) : Bool :=
  charListLe a.data b.data

/-- Insertion step of the id sort. -/
def insertSorted (a : String) : List String → List String
  | [] => [a]
  | b :: bs => if strLe a b then a :: b :: bs else b :: insertSorted a bs

/-- Ascending sort of the service ids. -/
def sortStrings : List String → List String
  | [] => []
  | a :: as => insertSorted a (sortStrings as)

/-- Canonical signature of a solution for deduplication
(src/services/optimization.rs, Solution::signature): service ids sorted
and comma-joined. -/
def Solution.signature (sol : Solution) : String :=
  String.intercalate "," (sortStrings (sol.services.map fun s => s.id))

/-- The ids carrying a binary variable: one variable per distinct catalog
service id (src/services/optimization.rs, service_vars). -/
def catalogIds (serviceCatalog : List ServiceInfo) : List String :=
  (serviceCatalog.map fun s => s.id).dedup

/-- Whether a selection satisfies the coverage constraint of one title
(src/services/optimization.rs, lines 305-315): at least one service of the
title that has a variable is selected; a title absent from the map adds no
constraint. -/
def coversTitle (serviceCatalog : List ServiceInfo)
    (titleToServices : List (String × List String)) (sel : List String)
    (title : String) : Bool :=
  match titleToServices.lookup title with
  | some services =>
    services.any fun sid => (catalogIds serviceCatalog).contains sid && sel.contains sid
  | none => true

/-- Whether a selection satisfies every must-cover constraint. -/
def feasibleSelection (serviceCatalog : List ServiceInfo)
    (titleToServices : List (String × List String))
    (availableMustHave : List String) (sel : List String) : Bool :=
  availableMustHave.all (coversTitle serviceCatalog titleToServices sel)

/-- Cost part of the objective (src/services/optimization.rs, lines
327-332): the summed cost of every catalog row whose variable is set. -/
def costTerm (serviceCatalog : List ServiceInfo) (sel : List String) : ℚ :=
  ((serviceCatalog.filter fun s => sel.contains s.id).map fun s => s.cost).sum

/-- Bonus part of the objective (src/services/optimization.rs, lines
334-343): one unit per occurrence of a selected service under a
nice-to-have title. -/
def bonusTerm (serviceCatalog : List ServiceInfo)
    (titleToServices : List (String × List String))
    (niceToHave : List String) (sel : List String) : ℚ :=
  (niceToHave.map fun title =>
    match titleToServices.lookup title with
    | some services =>
      ((services.filter fun sid =>
        (catalogIds serviceCatalog).contains sid && sel.contains sid).length : ℚ)
    | none => 0).sum

/-- The solver objective: cost minus weighted nice-to-have bonus. -/
def objective (serviceCatalog : List ServiceInfo)
    (titleToServices : List (String × List String))
    (niceToHave : List String) (coverageWeight : ℚ) (sel : List String) : ℚ :=
  costTerm serviceCatalog sel -
    coverageWeight * bonusTerm serviceCatalog titleToServices niceToHave sel

/-- All selections satisfying the must-cover constraints. -/
def feasibleCandidates (serviceCatalog : List ServiceInfo)
    (titleToServices : List (String × List String))
    (availableMustHave : List String) : List (List String) :=
  (catalogIds serviceCatalog).sublists.filter
    (feasibleSelection serviceCatalog titleToServices availableMustHave)

/-- The exact 0/1 solve: a feasible selection minimizing the objective,
none when the constraints are infeasible. -/
def solveIP (serviceCatalog : List ServiceInfo)
    (titleToServices : List (String × List String))
    (availableMustHave : List String) (niceToHave : List String)
    (coverageWeight : ℚ) : Option (List String) :=
  (feasibleCandidates serviceCatalog titleToServices availableMustHave).argmin
    (objective serviceCatalog titleToServices niceToHave coverageWeight)

/-- extract_selected_services (src/services/optimization.rs, lines
417-439): catalog rows whose variable is set, in catalog order. -/
def extractSelectedServices (serviceCatalog : List ServiceInfo)
    (sel : List String) : List StreamingService :=
  (serviceCatalog.filter fun s => sel.contains s.id).map fun s =>
    { id := s.id, name := s.name, monthlyCost := s.cost }

/-- count_nice_to_have_coverage (src/services/optimization.rs, lines
442-459): nice-to-have list entries covered by a selected service. -/
def countNiceToHaveCoverage (selectedServices : List StreamingService)
    (niceToHave : List String)
    (titleToServices : List (String × List String)) : Nat :=
  (niceToHave.filter fun title =>
    match titleToServices.lookup title with
    | some services =>
      services.any fun s => (selectedServices.map fun t => t.id).contains s
    | none => false).length

/-- find_solution (src/services/optimization.rs, lines 285-371) with the
solve modelled exactly: build the selection, extract the services and the
coverage statistics. -/
def findSolution (serviceCatalog : List ServiceInfo)
    (titleToServices : List (String × List String))
    (availableMustHave : List String) (niceToHave : List String)
    (coverageWeight : ℚ) : Option Solution :=
  (solveIP serviceCatalog titleToServices availableMustHave niceToHave
      coverageWeight).map fun sel =>
    let selectedServices := extractSelectedServices serviceCatalog sel
    { services := selectedServices
      totalCost := (selectedServices.map fun s => s.monthlyCost).sum
      mustHaveCoverage := availableMustHave.length
      niceToHaveCoverage :=
        countNiceToHaveCoverage selectedServices niceToHave titleToServices }

/-- Projection of a solution onto the response configuration struct
(src/services/optimization.rs, lines 402-407). -/
def Solution.toConfig (sol : Solution) : ServiceConfiguration :=
  { services := sol.services
    totalCost := sol.totalCost
    mustHaveCoverage := sol.mustHaveCoverage
    niceToHaveCoverage := sol.niceToHaveCoverage }

/-- The ascending nice-to-have weights of the spectrum
(src/services/optimization.rs, line 390). -/
def optimizationWeights : List ℚ := [1/10, 1, 3, 10, 100]

/-- The weight loop of generate_configurations
(src/services/optimization.rs, lines 385-410): solve at each weight, skip
failures, and append a configuration only when its signature is new. -/
def generateConfigurationsAux (serviceCatalog : List ServiceInfo)
    (titleToServices : List (String × List String))
    (availableMustHave : List String) (niceToHave : List String) :
    List ℚ → List String → List ServiceConfiguration
  | [], _ => []
  | w :: ws, seen =>
    match findSolution serviceCatalog titleToServices availableMustHave niceToHave w with
    | none => generateConfigurationsAux serviceCatalog titleToServices
        availableMustHave niceToHave ws seen
    | some sol =>
      if seen.contains sol.signature then
        generateConfigurationsAux serviceCatalog titleToServices
          availableMustHave niceToHave ws seen
      else
        sol.toConfig :: generateConfigurationsAux serviceCatalog titleToServices
          availableMustHave niceToHave ws (sol.signature :: seen)

/-- generate_configurations (src/services/optimization.rs, lines 377-414). -/
def generateConfigurations (serviceCatalog : List ServiceInfo)
    (titleToServices : List (String × List String))
    (availableMustHave : List String) (niceToHave : List String) :
    List ServiceConfiguration :=
  generateConfigurationsAux serviceCatalog titleToServices availableMustHave
    niceToHave optimizationWeights []

/-- solve_optimization (src/services/optimization.rs, lines 220-264): when
every must-have title is unavailable the response is the empty spectrum;
otherwise the generated spectrum.  In both branches the source returns Ok. -/
def solveOptimization (serviceCatalog : List ServiceInfo)
    (titleToServices : List (String × List String))
    (request : OptimizationRequest)
    (unavailableMustHave unavailableNiceToHave : List String) :
    OptimizationResponse :=
  let availableMustHave :=
    request.mustHave.filter fun title => (titleToServices.lookup title).isSome
  if availableMustHave.isEmpty && !request.mustHave.isEmpty then
    { configurations := []
      unavailableMustHave := unavailableMustHave
      unavailableNiceToHave := unavailableNiceToHave }
  else
    { configurations :=
        generateConfigurations serviceCatalog titleToServices availableMustHave
          request.niceToHave
      unavailableMustHave := unavailableMustHave
      unavailableNiceToHave := unavailableNiceToHave }

/-- optimize_services (src/services/optimization.rs, lines 35-129),
parameterized by the catalog table and the batched availability data. -/
def optimizeServices (db : List DbServiceRow)
    (availabilityData : List OptStreamingAvailability)
    (request : OptimizationRequest) : Except AppError OptimizationResponse :=
  let allTitles := request.mustHave ++ request.niceToHave
  if allTitles.isEmpty then
    .error (.InvalidInput "Must provide at least one title")
  else
    let titleToServices := buildTitleToServices availabilityData
    let serviceCatalog := fetchServicePricing db (serviceIdsSet availabilityData)
    if serviceCatalog.isEmpty then
      .error (.Optimization "No streaming services found for provided titles")
    else
      let unavailableMustHave :=
        request.mustHave.filter fun t => (titleToServices.lookup t).isNone
      let unavailableNiceToHave :=
        request.niceToHave.filter fun t => (titleToServices.lookup t).isNone
      .ok (solveOptimization serviceCatalog titleToServices request
        unavailableMustHave unavailableNiceToHave)

/-! Theorems. -/

/-- Pointwise description of the per-title result projections used by the
batcher: a success projects to some value, a failure to none. -/
theorem except_match_toOption (o : Except AppError StreamingAvailability) :
    (match o with | .ok a => some a | .error _ => none) = o.toOption := by
  cases o <;> rfl

/-- The error-side projection of the batcher is empty exactly when every
outcome is a success. -/
theorem except_match_error_none (o : Except AppError StreamingAvailability) :
    (match o with | .ok _ => none | .error e => some e) = none ↔ o.toOption ≠ none := by
  cases o <;> simp [Except.toOption]

/-- C6: fetch_availability_batch returns the all-failed ExternalApi error
exactly when the id list is non-empty and every per-title fetch fails;
otherwise it returns Ok with exactly the successful per-title results, so
per-title failures never abort the batch. -/
theorem fetchAvailabilityBatch_error_iff
    (fetch : TitleId → Except AppError StreamingAvailability)
    (titleIds : List TitleId) :
    (fetchAvailabilityBatch fetch titleIds =
        .error (.ExternalApi "Failed to fetch any availability data") ↔
      titleIds ≠ [] ∧ ∀ t ∈ titleIds, (fetch t).toOption = none) ∧
    (¬(titleIds ≠ [] ∧ ∀ t ∈ titleIds, (fetch t).toOption = none) →
      fetchAvailabilityBatch fetch titleIds =
        .ok (titleIds.filterMap fun t => (fetch t).toOption)) := by
  have results_eq : ((titleIds.map fetch).filterMap fun o =>
      match o with | .ok a => some a | .error _ => none) =
      titleIds.filterMap fun t => (fetch t).toOption := by
    rw [List.filterMap_map]
    have hfn : ((fun o : Except AppError StreamingAvailability =>
        match o with | .ok a => some a | .error _ => none) ∘ fetch) =
        fun t => (fetch t).toOption := funext fun t => except_match_toOption (fetch t)
    rw [hfn]
  have results_nil_iff : ((titleIds.map fetch).filterMap fun o =>
      match o with | .ok a => some a | .error _ => none) = [] ↔
      ∀ t ∈ titleIds, (fetch t).toOption = none := by
    rw [results_eq, List.filterMap_eq_nil_iff]
  have errors_nil_iff : ((titleIds.map fetch).filterMap fun o =>
      match o with | .ok _ => none | .error e => some e) = [] ↔
      ∀ t ∈ titleIds, (fetch t).toOption ≠ none := by
    rw [List.filterMap_map, List.filterMap_eq_nil_iff]
    constructor
    · intro h t ht
      exact (except_match_error_none (fetch t)).mp (h t ht)
    · intro h t ht
      exact (except_match_error_none (fetch t)).mpr (h t ht)
  have cond_iff : (((titleIds.map fetch).filterMap fun o =>
        match o with | .ok a => some a | .error _ => none).isEmpty &&
      !((titleIds.map fetch).filterMap fun o =>
        match o with | .ok _ => none | .error e => some e).isEmpty) = true ↔
      (titleIds ≠ [] ∧ ∀ t ∈ titleIds, (fetch t).toOption = none) := by
    rw [Bool.and_eq_true, Bool.not_eq_true', ← Bool.not_eq_true]
    rw [List.isEmpty_iff, List.isEmpty_iff]
    rw [results_nil_iff]
    constructor
    · rintro ⟨hall, herr⟩
      refine ⟨?_, hall⟩
      rintro rfl
      exact herr (by simp)
    · rintro ⟨hne, hall⟩
      refine ⟨hall, fun herr => ?_⟩
      rcases titleIds with _ | ⟨t0, rest⟩
      · exact hne rfl
      · have h0 := errors_nil_iff.mp herr t0 (by simp)
        exact h0 (hall t0 (by simp))
  constructor
  · unfold fetchAvailabilityBatch
    by_cases hc : (((titleIds.map fetch).filterMap fun o =>
        match o with | .ok a => some a | .error _ => none).isEmpty &&
      !((titleIds.map fetch).filterMap fun o =>
        match o with | .ok _ => none | .error e => some e).isEmpty) = true
    · rw [if_pos hc]
      exact iff_of_true rfl (cond_iff.mp hc)
    · rw [if_neg hc]
      simp only [reduceCtorEq, false_iff]
      intro hcontra
      exact hc (cond_iff.mpr hcontra)
  · intro hnot
    unfold fetchAvailabilityBatch
    rw [if_neg (fun hc => hnot (cond_iff.mp hc))]
    rw [results_eq]

/-- Witness for C6 at a concrete input: a single title whose fetch fails
makes the batch surface the all-failed error. -/
theorem fetchAvailabilityBatch_error_iff_witness :
    fetchAvailabilityBatch (fun _ => .error (.ExternalApi "boom"))
      [.Imdb "tt0000001"] =
      .error (.ExternalApi "Failed to fetch any availability data") :=
  (fetchAvailabilityBatch_error_iff (fun _ => .error (.ExternalApi "boom"))
    [.Imdb "tt0000001"]).1.mpr (by decide)

/-- C10: the batcher applied to no title ids returns Ok with the empty
list rather than the all-failed error. -/
theorem fetchAvailabilityBatch_nil
    (fetch : TitleId → Except AppError StreamingAvailability) :
    fetchAvailabilityBatch fetch [] = .ok [] := rfl

/-- C7: the cached composition returns a present cached value without any
write; on a miss it runs compute, and on compute success it schedules
exactly one background write of the computed value under the given key and
ttl while returning the value unchanged; on compute failure the error
propagates and no write is scheduled. -/
theorem cachedCall_spec {V : Type} (key : CacheKey) (ttl : Nat) :
    (∀ (v : V) (compute : Except AppError V),
      cachedCall (.ok (some v)) compute key ttl = (.ok v, [])) ∧
    (∀ v : V, cachedCall (.ok none) (.ok v) key ttl = (.ok v, [(key, v, ttl)])) ∧
    (∀ e : AppError,
      cachedCall (V := V) (.ok none) (.error e) key ttl = (.error e, [])) :=
  ⟨fun _ _ => rfl, fun _ => rfl, fun _ => rfl⟩

/-- The post-signal drain attempts a write for every buffered message in
order. -/
theorem drainFlush_map_fst (write : CacheWriteMessage → Bool)
    (msgs : List CacheWriteMessage) :
    (drainFlush write msgs).map Prod.fst = msgs := by
  induction msgs with
  | nil => rfl
  | cons m rest ih => simp [drainFlush, ih]

/-- Projecting message events back to their messages. -/
theorem messagesOf_map_msg (msgs : List CacheWriteMessage) :
    messagesOf (msgs.map WriterEvent.msg) = msgs := by
  induction msgs with
  | nil => rfl
  | cons m rest ih => simp [messagesOf, ih]

/-- C9: for any interleaving in which some messages are accepted before
the shutdown signal and the rest after it, the cache writer attempts a
remote write for every accepted message, in order, dropping none (a
remote-store failure only flips the logged success flag), and then exits:
the trace of attempted writes is exactly the accepted message sequence. -/
theorem cacheWriterTask_flushes_all (write : CacheWriteMessage → Bool)
    (pre post : List CacheWriteMessage) :
    (cacheWriterTask write
        (pre.map WriterEvent.msg ++ WriterEvent.signal :: post.map WriterEvent.msg)).map
        Prod.fst = pre ++ post := by
  induction pre with
  | nil => simp [cacheWriterTask, messagesOf_map_msg, drainFlush_map_fst]
  | cons m rest ih => simp [cacheWriterTask, ih]

/-- C8: the direct-IMDB provider converts a DTO with a present IMDB field
to a Title whose id is Imdb of that field, and otherwise Imdb of the
upstream id; the Watchmode provider always uses the Watchmode id, even
when an IMDB id is present. -/
theorem title_conversion_id_rules :
    (∀ (show_ : ApiShow) (imdbId : String), show_.imdbId = some imdbId →
      (Title.ofApiShow show_).id = .Imdb imdbId) ∧
    (∀ show_ : ApiShow, show_.imdbId = none →
      (Title.ofApiShow show_).id = .Imdb show_.id) ∧
    (∀ wt : WatchmodeTitle, (Title.ofWatchmodeTitle wt).id = .Watchmode wt.id) := by
  refine ⟨fun show_ imdbId h => ?_, fun show_ h => ?_, fun wt => rfl⟩
  · simp [Title.ofApiShow, h]
  · simp [Title.ofApiShow, h]

/-- Witness for C8 at concrete DTOs. -/
theorem title_conversion_id_rules_witness :
    (Title.ofApiShow
        ⟨"12345", some "tt1375666", "Inception", "movie", none, some 2010, none⟩).id =
      .Imdb "tt1375666" ∧
    (Title.ofApiShow
        ⟨"12345", none, "Unknown Movie", "series", none, none, some 2020⟩).id =
      .Imdb "12345" ∧
    (Title.ofWatchmodeTitle ⟨3173903, "Inception", "movie", some 2010,
        some "tt1375666"⟩).id = .Watchmode 3173903 :=
  ⟨title_conversion_id_rules.1 _ _ rfl, title_conversion_id_rules.2.1 _ rfl,
    title_conversion_id_rules.2.2 _⟩

/-- Counterexample to C1: the direct-IMDB provider builds the result id
from the imdbId field of the upstream DTO, so a fetch requested under one
IMDB id whose DTO reports another returns an id different from the
requested one. -/
theorem saFetchAvailability_id_not_requested :
    ((saFetchAvailability (.Imdb "tt0000001") (.ok none)
        (.ok ⟨some "tt0000002", []⟩) 0).map StreamingAvailability.id =
      .ok (.Imdb "tt0000002")) ∧
    TitleId.Imdb "tt0000002" ≠ TitleId.Imdb "tt0000001" := by
  exact ⟨rfl, by decide⟩

/-- C1 (amended): the Watchmode provider returns availability whose id is
exactly the requested TitleId; the direct-IMDB provider returns Imdb of
the imdbId field found in the DTO, which equals the requested id only when
the request is Imdb of that value. -/
theorem fetch_availability_id_amended :
    (∀ (serviceMappings : List (Int × String × String)) (requestedId : TitleId)
        (watchmodeId : Nat) (details : WatchmodeTitleDetails) (now : Nat),
      (buildAvailabilityFromDetails serviceMappings requestedId watchmodeId
          details now).id = requestedId) ∧
    (∀ (details : ApiShowDetails) (now : Nat) (imdbId : String),
      details.imdbId = some imdbId →
      (convertApiResponse details now).map StreamingAvailability.id =
        .ok (.Imdb imdbId)) := by
  refine ⟨fun serviceMappings requestedId watchmodeId details now => rfl,
    fun details now imdbId h => ?_⟩
  simp [convertApiResponse, h, Except.map]

/-- Witness for the amended C1 at concrete inputs. -/
theorem fetch_availability_id_amended_witness :
    (buildAvailabilityFromDetails [] (.Imdb "tt9999999") 12345 ⟨none⟩ 0).id =
      .Imdb "tt9999999" ∧
    (convertApiResponse ⟨some "tt1375666", []⟩ 0).map StreamingAvailability.id =
      .ok (.Imdb "tt1375666") :=
  ⟨fetch_availability_id_amended.1 [] (.Imdb "tt9999999") 12345 ⟨none⟩ 0,
    fetch_availability_id_amended.2 ⟨some "tt1375666", []⟩ 0 "tt1375666" rfl⟩

attribute [local semireducible] Rat.mul Rat.add Rat.sub Rat.inv in
/-- Counterexample to C2, in three parts.  First: when the only must-have
title has no subscription-type entry and no other title contributes a
catalog service, optimize_services returns the Optimization error instead
of a success response with empty configurations.  Second: a request with
no must-have titles and one available nice-to-have returns a success
response whose configurations list is non-empty (its first configuration
selects no services) although no available must-have titles exist, so the
right-to-left direction of the empty-iff-no-available-must-have conjunct
fails.  Third: a must-have title that is available (it has a
subscription-type entry, and is not reported unavailable) but whose
services have no active catalog row yields a success response with an
empty configurations list, so the left-to-right direction fails too. -/
theorem optimizeServices_no_subscription_catalog_error :
    (optimizeServices [⟨"netflix", "Netflix", 1, true⟩]
        [⟨"t1", [⟨"netflix", "Netflix", .Rent, none, none⟩], 0⟩]
        ⟨["t1"], []⟩ =
      .error (.Optimization "No streaming services found for provided titles")) ∧
    (optimizeServices [⟨"netflix", "Netflix", 1, true⟩]
        [⟨"t2", [⟨"netflix", "Netflix", .Subscription, none, none⟩], 0⟩]
        ⟨[], ["t2"]⟩ =
      .ok ⟨[⟨[], 0, 0, 0⟩, ⟨[⟨"netflix", "Netflix", 1⟩], 1, 0, 1⟩], [], []⟩) ∧
    (((buildTitleToServices
        [⟨"t1", [⟨"foo", "Foo", .Subscription, none, none⟩], 0⟩,
         ⟨"t2", [⟨"netflix", "Netflix", .Subscription, none, none⟩], 0⟩]).lookup
          "t1").isSome = true ∧
      optimizeServices [⟨"netflix", "Netflix", 1, true⟩]
        [⟨"t1", [⟨"foo", "Foo", .Subscription, none, none⟩], 0⟩,
         ⟨"t2", [⟨"netflix", "Netflix", .Subscription, none, none⟩], 0⟩]
        ⟨["t1"], ["t2"]⟩ = .ok ⟨[], [], []⟩) := by
  refine ⟨by decide, by decide, by decide, by decide⟩

/-- C2 (amended): when must_have is non-empty, every must-have title is
unavailable (no subscription-type service in the batched availability) and
the derived service catalog is non-empty, optimize_services returns a
success response whose configurations list is empty and whose
unavailable_must_have lists every requested must-have title; without a
non-empty catalog the Optimization error is returned instead.  Of the
empty-iff-no-available-must-have conjunct only this direction survives:
every success response with a non-empty configurations list comes from a
request that either contains an available must-have title or has no
must-have titles at all. -/
theorem optimizeServices_all_must_have_unavailable :
    (∀ (db : List DbServiceRow) (avail : List OptStreamingAvailability)
        (mustHave nice : List String),
      mustHave ≠ [] →
      (∀ t ∈ mustHave, (buildTitleToServices avail).lookup t = none) →
      fetchServicePricing db (serviceIdsSet avail) ≠ [] →
      optimizeServices db avail ⟨mustHave, nice⟩ =
        .ok { configurations := []
              unavailableMustHave := mustHave
              unavailableNiceToHave :=
                nice.filter fun t =>
                  ((buildTitleToServices avail).lookup t).isNone }) ∧
    (∀ (db : List DbServiceRow) (avail : List OptStreamingAvailability)
        (req : OptimizationRequest) (resp : OptimizationResponse),
      optimizeServices db avail req = .ok resp →
      resp.configurations ≠ [] →
      (∃ t ∈ req.mustHave,
        ((buildTitleToServices avail).lookup t).isSome = true) ∨
        req.mustHave = []) := by
  constructor
  · intro db avail mustHave nice hmh hunavail hcat
    have hA : ¬((mustHave ++ nice).isEmpty = true) := by
      rw [List.isEmpty_iff]
      intro h
      exact hmh (List.append_eq_nil.mp h).1
    have hB : ¬((fetchServicePricing db (serviceIdsSet avail)).isEmpty = true) := by
      rw [List.isEmpty_iff]
      exact hcat
    have hfilSome :
        (mustHave.filter fun t =>
          ((buildTitleToServices avail).lookup t).isSome) = [] := by
      rw [List.filter_eq_nil_iff]
      intro t ht
      simp [hunavail t ht]
    have hfilNone :
        (mustHave.filter fun t =>
          ((buildTitleToServices avail).lookup t).isNone) = mustHave := by
      rw [List.filter_eq_self]
      intro t ht
      simp [hunavail t ht]
    have hmhB : mustHave.isEmpty = false := by
      rw [List.isEmpty_eq_false]
      exact hmh
    simp only [optimizeServices, solveOptimization, hfilSome, hfilNone, hA, hB,
      if_false, hmhB, List.isEmpty_nil, Bool.not_false, Bool.and_true, if_true,
      ite_false, ite_true]
    simp
  · intro db avail req resp h hne
    unfold optimizeServices at h
    by_cases hA : (req.mustHave ++ req.niceToHave).isEmpty = true
    · rw [if_pos hA] at h; exact absurd h (by simp)
    rw [if_neg hA] at h
    by_cases hB : (fetchServicePricing db (serviceIdsSet avail)).isEmpty = true
    · rw [if_pos hB] at h; exact absurd h (by simp)
    rw [if_neg hB] at h
    injection h with h
    rw [← h] at hne
    unfold solveOptimization at hne
    by_cases hC : ((req.mustHave.filter fun title =>
        ((buildTitleToServices avail).lookup title).isSome).isEmpty &&
        !req.mustHave.isEmpty) = true
    · rw [if_pos hC] at hne
      exact absurd rfl hne
    · by_cases hE : (req.mustHave.filter fun title =>
          ((buildTitleToServices avail).lookup title).isSome).isEmpty = true
      · refine Or.inr ?_
        rw [← List.isEmpty_iff]
        by_contra hne2
        apply hC
        rw [Bool.and_eq_true]
        refine ⟨hE, ?_⟩
        rw [Bool.not_eq_true] at hne2
        rw [Bool.eq_false_iff] at hne2
        rw [Bool.not_eq_true']
        exact Bool.not_eq_true _ ▸ hne2
      · refine Or.inl ?_
        have hfil : (req.mustHave.filter fun title =>
            ((buildTitleToServices avail).lookup title).isSome) ≠ [] := by
          intro hcontra
          exact hE (by rw [hcontra]; rfl)
        obtain ⟨x, hx⟩ := List.exists_mem_of_ne_nil _ hfil
        have hmem := List.mem_filter.mp hx
        exact ⟨x, hmem.1, hmem.2⟩

attribute [local semireducible] Rat.mul Rat.add Rat.sub Rat.inv in
/-- Witness for the amended C2: an unavailable must-have next to an
available nice-to-have (which keeps the catalog non-empty) yields the
empty spectrum with the must-have reported, and a concrete success
response with a non-empty spectrum comes from a request with no must-have
titles, landing in the second disjunct. -/
theorem optimizeServices_all_must_have_unavailable_witness :
    (optimizeServices [⟨"netflix", "Netflix", 1, true⟩]
        [⟨"t2", [⟨"netflix", "Netflix", .Subscription, none, none⟩], 0⟩]
        ⟨["t1"], ["t2"]⟩ = .ok ⟨[], ["t1"], []⟩) ∧
    ((∃ t ∈ ([] : List String),
        ((buildTitleToServices
          [⟨"t2", [⟨"netflix", "Netflix", .Subscription, none, none⟩],
            0⟩]).lookup t).isSome = true) ∨
      ([] : List String) = []) := by
  constructor
  · have h := optimizeServices_all_must_have_unavailable.1
      [⟨"netflix", "Netflix", 1, true⟩]
      [⟨"t2", [⟨"netflix", "Netflix", .Subscription, none, none⟩], 0⟩]
      ["t1"] ["t2"] (by decide) (by decide) (by decide)
    exact h.trans (by decide)
  · exact optimizeServices_all_must_have_unavailable.2
      [⟨"netflix", "Netflix", 1, true⟩]
      [⟨"t2", [⟨"netflix", "Netflix", .Subscription, none, none⟩], 0⟩]
      ⟨[], ["t2"]⟩
      ⟨[⟨[], 0, 0, 0⟩, ⟨[⟨"netflix", "Netflix", 1⟩], 1, 0, 1⟩], [], []⟩
      (by decide) (by decide)


/-- The exact solve fails precisely when no selection satisfies the
must-cover constraints. -/
theorem solveIP_eq_none_iff (c : List ServiceInfo)
    (t : List (String × List String)) (a n : List String) (w : ℚ) :
    solveIP c t a n w = none ↔ feasibleCandidates c t a = [] := by
  unfold solveIP
  exact List.argmin_eq_none

/-- A successful exact solve returns a feasible selection that minimizes
the objective among all feasible selections. -/
theorem solveIP_spec {c : List ServiceInfo} {t : List (String × List String)}
    {a n : List String} {w : ℚ} {sel : List String}
    (h : solveIP c t a n w = some sel) :
    sel ∈ feasibleCandidates c t a ∧
      ∀ sel2 ∈ feasibleCandidates c t a,
        objective c t n w sel ≤ objective c t n w sel2 := by
  refine ⟨List.argmin_mem (Option.mem_def.mpr h), fun sel2 h2 => ?_⟩
  exact List.le_of_mem_argmin h2 (Option.mem_def.mpr h)

/-- Scalarization monotonicity: raising the nice-to-have weight never
lowers the cost of the exact minimizer. -/
theorem costTerm_mono_in_weight {c : List ServiceInfo}
    {t : List (String × List String)} {a n : List String} {w1 w2 : ℚ}
    (h0 : 0 ≤ w1) (hw : w1 ≤ w2) {sel1 sel2 : List String}
    (h1 : solveIP c t a n w1 = some sel1)
    (h2 : solveIP c t a n w2 = some sel2) :
    costTerm c sel1 ≤ costTerm c sel2 := by
  rcases eq_or_lt_of_le hw with rfl | hlt
  · rw [h1] at h2
    injection h2 with h2
    rw [h2]
  · obtain ⟨m1, o1⟩ := solveIP_spec h1
    obtain ⟨m2, o2⟩ := solveIP_spec h2
    have i1 := o1 sel2 m2
    have i2 := o2 sel1 m1
    unfold objective at i1 i2
    have hkey : (w2 - w1) * (bonusTerm c t n sel1 - bonusTerm c t n sel2) ≤ 0 := by
      nlinarith [i1, i2]
    have hb : bonusTerm c t n sel1 ≤ bonusTerm c t n sel2 := by
      by_contra hcon
      push_neg at hcon
      have hpos : 0 < (w2 - w1) * (bonusTerm c t n sel1 - bonusTerm c t n sel2) :=
        mul_pos (sub_pos.mpr hlt) (sub_pos.mpr hcon)
      linarith
    have hnn : 0 ≤ w1 * (bonusTerm c t n sel2 - bonusTerm c t n sel1) :=
      mul_nonneg h0 (sub_nonneg.mpr hb)
    nlinarith [i1, hnn]

/-- The summed monthly cost of the extracted services equals the cost part
of the objective. -/
theorem extract_cost_sum (c : List ServiceInfo) (sel : List String) :
    ((extractSelectedServices c sel).map fun s => s.monthlyCost).sum =
      costTerm c sel := by
  unfold extractSelectedServices costTerm
  rw [List.map_map]
  rfl

/-- Decomposition of a successful find_solution: the underlying selection,
and the fields of the produced solution. -/
theorem findSolution_target {c : List ServiceInfo}
    {t : List (String × List String)} {a n : List String} {w : ℚ}
    {sol : Solution} (h : findSolution c t a n w = some sol) :
    ∃ sel, solveIP c t a n w = some sel ∧
      sol.totalCost = costTerm c sel ∧
      sol.services = extractSelectedServices c sel ∧
      sol.mustHaveCoverage = a.length := by
  unfold findSolution at h
  cases hs : solveIP c t a n w with
  | none => rw [hs] at h; exact absurd h (by simp)
  | some sel =>
    rw [hs] at h
    simp only [Option.map_some'] at h
    injection h with h
    refine ⟨sel, rfl, ?_, ?_, ?_⟩
    · rw [← h]
      exact extract_cost_sum c sel
    · rw [← h]
    · rw [← h]

/-- find_solution fails exactly when the exact solve does. -/
theorem findSolution_eq_none_iff (c : List ServiceInfo)
    (t : List (String × List String)) (a n : List String) (w : ℚ) :
    findSolution c t a n w = none ↔ solveIP c t a n w = none := by
  unfold findSolution
  exact Option.map_eq_none'

/-- With infeasible constraints every weight is skipped and the weight
loop returns no configuration. -/
theorem generateConfigurationsAux_nil_of_infeasible {c : List ServiceInfo}
    {t : List (String × List String)} {a : List String}
    (h : feasibleCandidates c t a = []) (n : List String) :
    ∀ (ws : List ℚ) (seen : List String),
      generateConfigurationsAux c t a n ws seen = [] := by
  intro ws
  induction ws with
  | nil => intro seen; rfl
  | cons w ws ih =>
    intro seen
    have hn : findSolution c t a n w = none :=
      (findSolution_eq_none_iff c t a n w).mpr ((solveIP_eq_none_iff c t a n w).mpr h)
    simp only [generateConfigurationsAux, hn]
    exact ih seen

/-- Every configuration produced by the weight loop arises from a
successful find_solution at one of the remaining weights. -/
theorem generateConfigurationsAux_mem {c : List ServiceInfo}
    {t : List (String × List String)} {a n : List String} :
    ∀ (ws : List ℚ) (seen : List String) (cfg : ServiceConfiguration),
      cfg ∈ generateConfigurationsAux c t a n ws seen →
      ∃ w ∈ ws, ∃ sol, findSolution c t a n w = some sol ∧ cfg = sol.toConfig := by
  intro ws
  induction ws with
  | nil => intro seen cfg hmem; simp [generateConfigurationsAux] at hmem
  | cons w ws ih =>
    intro seen cfg hmem
    cases hf : findSolution c t a n w with
    | none =>
      simp only [generateConfigurationsAux, hf] at hmem
      obtain ⟨w2, hw2, sol, hsol, hcfg⟩ := ih seen cfg hmem
      exact ⟨w2, by simp [hw2], sol, hsol, hcfg⟩
    | some sol =>
      simp only [generateConfigurationsAux, hf] at hmem
      by_cases hseen : seen.contains sol.signature
      · rw [if_pos hseen] at hmem
        obtain ⟨w2, hw2, sol2, hsol2, hcfg⟩ := ih seen cfg hmem
        exact ⟨w2, by simp [hw2], sol2, hsol2, hcfg⟩
      · rw [if_neg hseen] at hmem
        rcases List.mem_cons.mp hmem with hcfg | htail
        · exact ⟨w, by simp, sol, hf, hcfg⟩
        · obtain ⟨w2, hw2, sol2, hsol2, hcfg⟩ := ih _ cfg htail
          exact ⟨w2, by simp [hw2], sol2, hsol2, hcfg⟩

/-- The first configuration of the spectrum is the solution at the lowest
weight. -/
theorem generateConfigurations_head {c : List ServiceInfo}
    {t : List (String × List String)} {a n : List String}
    {cfg : ServiceConfiguration} {rest : List ServiceConfiguration}
    (h : generateConfigurations c t a n = cfg :: rest) :
    ∃ sol, findSolution c t a n (1 / 10) = some sol ∧ cfg = sol.toConfig := by
  unfold generateConfigurations optimizationWeights at h
  cases hf : findSolution c t a n (1 / 10) with
  | none =>
    have hcands : feasibleCandidates c t a = [] :=
      (solveIP_eq_none_iff c t a n (1 / 10)).mp
        ((findSolution_eq_none_iff c t a n (1 / 10)).mp hf)
    rw [generateConfigurationsAux_nil_of_infeasible hcands] at h
    exact absurd h (by simp)
  | some sol =>
    simp only [generateConfigurationsAux, hf, List.contains_nil, Bool.false_eq_true,
      if_false] at h
    exact ⟨sol, rfl, ((List.cons.injEq _ _ _ _).mp h).1.symm⟩

/-- Every weight of the spectrum is at least the first one. -/
theorem optimizationWeights_lb : ∀ w ∈ optimizationWeights, (1 : ℚ) / 10 ≤ w := by
  intro w hw
  simp only [optimizationWeights, List.mem_cons, List.mem_singleton] at hw
  rcases hw with rfl | rfl | rfl | rfl | rfl | h
  · norm_num
  · norm_num
  · norm_num
  · norm_num
  · norm_num
  · simp at h

/-- C3: for every success response of the optimizer, the first
configuration has a total cost no larger than any other configuration of
the spectrum, because configurations are produced at ascending weights and
the exact per-weight minimizer can only get costlier as the weight grows. -/
theorem optimizeServices_first_config_cost_optimal
    (db : List DbServiceRow) (avail : List OptStreamingAvailability)
    (req : OptimizationRequest) (resp : OptimizationResponse)
    (h : optimizeServices db avail req = .ok resp)
    (c0 : ServiceConfiguration) (h0 : resp.configurations.head? = some c0)
    (cfg : ServiceConfiguration) (hc : cfg ∈ resp.configurations) :
    c0.totalCost ≤ cfg.totalCost := by
  unfold optimizeServices at h
  by_cases hA : (req.mustHave ++ req.niceToHave).isEmpty = true
  · rw [if_pos hA] at h; exact absurd h (by simp)
  rw [if_neg hA] at h
  by_cases hB : (fetchServicePricing db (serviceIdsSet avail)).isEmpty = true
  · rw [if_pos hB] at h; exact absurd h (by simp)
  rw [if_neg hB] at h
  injection h with h
  rw [← h] at h0 hc
  unfold solveOptimization at h0 hc
  by_cases hC : ((req.mustHave.filter fun title =>
      ((buildTitleToServices avail).lookup title).isSome).isEmpty &&
      !req.mustHave.isEmpty) = true
  · rw [if_pos hC] at h0
    exact absurd h0 (by simp)
  · rw [if_neg hC] at h0 hc
    simp only at h0 hc
    cases hgen : generateConfigurations (fetchServicePricing db (serviceIdsSet avail))
        (buildTitleToServices avail)
        (req.mustHave.filter fun title =>
          ((buildTitleToServices avail).lookup title).isSome)
        req.niceToHave with
    | nil =>
      rw [hgen] at h0
      exact absurd h0 (by simp)
    | cons first rest =>
      rw [hgen] at h0 hc
      simp only [List.head?_cons, Option.some.injEq] at h0
      obtain ⟨sol0, hsol0, hcfg0⟩ := generateConfigurations_head hgen
      obtain ⟨w, hwmem, sol, hsol, hcfg⟩ :=
        generateConfigurationsAux_mem _ _ cfg (by rw [generateConfigurations] at hgen; rw [hgen]; exact hc)
      obtain ⟨sel0, hsel0, hcost0, _, _⟩ := findSolution_target hsol0
      obtain ⟨sel, hsel, hcost, _, _⟩ := findSolution_target hsol
      have hle : costTerm (fetchServicePricing db (serviceIdsSet avail)) sel0 ≤
          costTerm (fetchServicePricing db (serviceIdsSet avail)) sel :=
        costTerm_mono_in_weight (by norm_num) (optimizationWeights_lb w hwmem) hsel0 hsel
      rw [← h0, hcfg0, hcfg]
      show sol0.totalCost ≤ sol.totalCost
      rw [hcost0, hcost]
      exact hle

attribute [local semireducible] Rat.mul Rat.add Rat.sub Rat.inv in
/-- Witness for C3: a concrete run producing a two-entry spectrum whose
first configuration is the cheaper one. -/
theorem optimizeServices_first_config_cost_optimal_witness :
    (ServiceConfiguration.mk [⟨"netflix", "Netflix", 2⟩] 2 1 0).totalCost ≤
      (ServiceConfiguration.mk [⟨"netflix", "Netflix", 2⟩, ⟨"hulu", "Hulu", 1⟩]
        3 1 1).totalCost :=
  optimizeServices_first_config_cost_optimal
    [⟨"netflix", "Netflix", 2, true⟩, ⟨"hulu", "Hulu", 1, true⟩]
    [⟨"t1", [⟨"netflix", "Netflix", .Subscription, none, none⟩], 0⟩,
     ⟨"t2", [⟨"hulu", "Hulu", .Subscription, none, none⟩], 0⟩]
    ⟨["t1"], ["t2"]⟩
    ⟨[⟨[⟨"netflix", "Netflix", 2⟩], 2, 1, 0⟩,
      ⟨[⟨"netflix", "Netflix", 2⟩, ⟨"hulu", "Hulu", 1⟩], 3, 1, 1⟩], [], []⟩
    (by decide) _ (by decide) _ (by decide)

/-- Canonical signature of a response configuration: the same sorted
comma-joined service ids as Solution::signature. -/
def ServiceConfiguration.signature (cfg : ServiceConfiguration) : String :=
  String.intercalate "," (sortStrings (cfg.services.map fun s => s.id))

/-- The weight loop never emits a configuration whose signature was
already seen, and emits pairwise distinct signatures. -/
theorem generateConfigurationsAux_signatures {c : List ServiceInfo}
    {t : List (String × List String)} {a n : List String} :
    ∀ (ws : List ℚ) (seen : List String),
      (∀ cfg ∈ generateConfigurationsAux c t a n ws seen,
        cfg.signature ∉ seen) ∧
      (generateConfigurationsAux c t a n ws seen).Pairwise
        (fun x y => x.signature ≠ y.signature) := by
  intro ws
  induction ws with
  | nil =>
    intro seen
    exact ⟨fun cfg hmem => absurd hmem (by simp [generateConfigurationsAux]),
      by simp [generateConfigurationsAux]⟩
  | cons w ws ih =>
    intro seen
    cases hf : findSolution c t a n w with
    | none =>
      simp only [generateConfigurationsAux, hf]
      exact ih seen
    | some sol =>
      simp only [generateConfigurationsAux, hf]
      by_cases hseen : seen.contains sol.signature
      · rw [if_pos hseen]
        exact ih seen
      · rw [if_neg hseen]
        have hnotin : sol.signature ∉ seen := fun hm => hseen (List.elem_iff.mpr hm)
        constructor
        · intro cfg hmem
          rcases List.mem_cons.mp hmem with rfl | htail
          · exact hnotin
          · have := (ih (sol.signature :: seen)).1 cfg htail
            exact fun hm => this (List.mem_cons_of_mem _ hm)
        · refine List.Pairwise.cons ?_ (ih (sol.signature :: seen)).2
          intro y hy
          have := (ih (sol.signature :: seen)).1 y hy
          exact fun heq => this (heq ▸ List.mem_cons_self _ _)

/-- Two selections inducing the same set of extracted service ids extract
identical service lists: extraction filters the catalog by membership of
the row id in the selection. -/
theorem extract_eq_of_idset_eq {c : List ServiceInfo} {sel1 sel2 : List String}
    (h : ∀ x : String,
      x ∈ (extractSelectedServices c sel1).map (fun s => s.id) ↔
      x ∈ (extractSelectedServices c sel2).map fun s => s.id) :
    extractSelectedServices c sel1 = extractSelectedServices c sel2 := by
  have hmem : ∀ (sel : List String) (x : String),
      x ∈ (extractSelectedServices c sel).map (fun s => s.id) ↔
      ∃ s ∈ c, sel.contains s.id = true ∧ s.id = x := by
    intro sel x
    unfold extractSelectedServices
    rw [List.map_map]
    simp only [List.mem_map, Function.comp, List.mem_filter]
    constructor
    · rintro ⟨s, ⟨hs, hsel⟩, hx⟩
      exact ⟨s, hs, hsel, hx⟩
    · rintro ⟨s, hs, hsel, hx⟩
      exact ⟨s, ⟨hs, hsel⟩, hx⟩
  have hpt : ∀ s ∈ c, (sel1.contains s.id) = (sel2.contains s.id) := by
    intro s hs
    rw [Bool.eq_iff_iff]
    constructor
    · intro h1
      have hin : s.id ∈ (extractSelectedServices c sel2).map fun s => s.id :=
        (h s.id).mp ((hmem sel1 s.id).mpr ⟨s, hs, h1, rfl⟩)
      obtain ⟨s2, hs2, hsel2, hx⟩ := (hmem sel2 s.id).mp hin
      rw [← hx]
      exact hsel2
    · intro h2
      have hin : s.id ∈ (extractSelectedServices c sel1).map fun s => s.id :=
        (h s.id).mpr ((hmem sel2 s.id).mpr ⟨s, hs, h2, rfl⟩)
      obtain ⟨s1, hs1, hsel1, hx⟩ := (hmem sel1 s.id).mp hin
      rw [← hx]
      exact hsel1
  unfold extractSelectedServices
  rw [List.filter_congr hpt]

/-- Enriched membership: every configuration of the weight loop carries
the services extracted from some solved selection. -/
theorem generateConfigurationsAux_services {c : List ServiceInfo}
    {t : List (String × List String)} {a n : List String}
    (ws : List ℚ) (seen : List String) (cfg : ServiceConfiguration)
    (hmem : cfg ∈ generateConfigurationsAux c t a n ws seen) :
    ∃ sel, cfg.services = extractSelectedServices c sel := by
  obtain ⟨w, _, sol, hsol, rfl⟩ :=
    generateConfigurationsAux_mem ws seen cfg hmem
  obtain ⟨sel, _, _, hservices, _⟩ := findSolution_target hsol
  exact ⟨sel, hservices⟩

/-- C4: no two configurations of any optimizer response have identical
sets of selected service ids; each selection is canonicalized by its
sorted comma-joined signature and deduplicated across weights. -/
theorem optimizeServices_configs_distinct_service_sets
    (db : List DbServiceRow) (avail : List OptStreamingAvailability)
    (req : OptimizationRequest) (resp : OptimizationResponse)
    (h : optimizeServices db avail req = .ok resp) :
    resp.configurations.Pairwise fun x y =>
      (x.services.map fun s => s.id).toFinset ≠
      (y.services.map fun s => s.id).toFinset := by
  unfold optimizeServices at h
  by_cases hA : (req.mustHave ++ req.niceToHave).isEmpty = true
  · rw [if_pos hA] at h; exact absurd h (by simp)
  rw [if_neg hA] at h
  by_cases hB : (fetchServicePricing db (serviceIdsSet avail)).isEmpty = true
  · rw [if_pos hB] at h; exact absurd h (by simp)
  rw [if_neg hB] at h
  injection h with h
  rw [← h]
  unfold solveOptimization
  by_cases hC : ((req.mustHave.filter fun title =>
      ((buildTitleToServices avail).lookup title).isSome).isEmpty &&
      !req.mustHave.isEmpty) = true
  · rw [if_pos hC]
    exact List.Pairwise.nil
  · rw [if_neg hC]
    simp only
    have hsig := (generateConfigurationsAux_signatures
      (c := fetchServicePricing db (serviceIdsSet avail))
      (t := buildTitleToServices avail)
      (a := req.mustHave.filter fun title =>
        ((buildTitleToServices avail).lookup title).isSome)
      (n := req.niceToHave) optimizationWeights []).2
    refine hsig.imp_of_mem ?_
    intro x y hx hy hne heq
    apply hne
    obtain ⟨selx, hxs⟩ := generateConfigurationsAux_services _ _ x hx
    obtain ⟨sely, hys⟩ := generateConfigurationsAux_services _ _ y hy
    have hiff : ∀ z : String,
        z ∈ (extractSelectedServices (fetchServicePricing db (serviceIdsSet avail)) selx).map
          (fun s => s.id) ↔
        z ∈ (extractSelectedServices (fetchServicePricing db (serviceIdsSet avail)) sely).map
          fun s => s.id := by
      intro z
      rw [← hxs, ← hys]
      constructor
      · intro hz
        have := List.mem_toFinset.mpr hz
        rw [heq] at this
        exact List.mem_toFinset.mp this
      · intro hz
        have := List.mem_toFinset.mpr hz
        rw [← heq] at this
        exact List.mem_toFinset.mp this
    have hserv : x.services = y.services := by
      rw [hxs, hys]
      exact extract_eq_of_idset_eq hiff
    unfold ServiceConfiguration.signature
    rw [hserv]

attribute [local semireducible] Rat.mul Rat.add Rat.sub Rat.inv in
/-- Witness for C4: the concrete two-configuration spectrum has distinct
selected-service sets. -/
theorem optimizeServices_configs_distinct_service_sets_witness :
    (OptimizationResponse.mk
        [⟨[⟨"netflix", "Netflix", 2⟩], 2, 1, 0⟩,
         ⟨[⟨"netflix", "Netflix", 2⟩, ⟨"hulu", "Hulu", 1⟩], 3, 1, 1⟩]
        [] []).configurations.Pairwise (fun x y =>
      (x.services.map fun s => s.id).toFinset ≠
      (y.services.map fun s => s.id).toFinset) :=
  optimizeServices_configs_distinct_service_sets
    [⟨"netflix", "Netflix", 2, true⟩, ⟨"hulu", "Hulu", 1, true⟩]
    [⟨"t1", [⟨"netflix", "Netflix", .Subscription, none, none⟩], 0⟩,
     ⟨"t2", [⟨"hulu", "Hulu", .Subscription, none, none⟩], 0⟩]
    ⟨["t1"], ["t2"]⟩
    ⟨[⟨[⟨"netflix", "Netflix", 2⟩], 2, 1, 0⟩,
      ⟨[⟨"netflix", "Netflix", 2⟩, ⟨"hulu", "Hulu", 1⟩], 3, 1, 1⟩], [], []⟩
    (by decide)

/-- The must-cover constraint set depends on the available must-have list
only through membership. -/
theorem feasibleSelection_congr {c : List ServiceInfo}
    {t : List (String × List String)} {l1 l2 : List String}
    (h : ∀ x, x ∈ l1 ↔ x ∈ l2) (sel : List String) :
    feasibleSelection c t l1 sel = feasibleSelection c t l2 sel := by
  unfold feasibleSelection
  rw [Bool.eq_iff_iff]
  simp only [List.all_eq_true]
  constructor
  · intro hh x hx
    exact hh x ((h x).mpr hx)
  · intro hh x hx
    exact hh x ((h x).mp hx)

/-- find_solution on a membership-equivalent available must-have list
returns the same selection, services and cost; only the reported
must_have_coverage becomes the new list length. -/
theorem findSolution_availMH_congr {c : List ServiceInfo}
    {t : List (String × List String)} {n : List String} {l1 l2 : List String}
    (h : ∀ x, x ∈ l1 ↔ x ∈ l2) (w : ℚ) :
    findSolution c t l2 n w = (findSolution c t l1 n w).map
      fun sol => { sol with mustHaveCoverage := l2.length } := by
  have hfc : feasibleCandidates c t l2 = feasibleCandidates c t l1 := by
    unfold feasibleCandidates
    apply List.filter_congr
    intro sel hsel
    exact (feasibleSelection_congr h sel).symm
  unfold findSolution solveIP
  rw [hfc]
  cases (feasibleCandidates c t l1).argmin (objective c t n w) with
  | none => rfl
  | some sel => rfl

/-- The weight loop on a membership-equivalent available must-have list
produces the same configurations up to the reported coverage count. -/
theorem generateConfigurationsAux_availMH_congr {c : List ServiceInfo}
    {t : List (String × List String)} {n : List String} {l1 l2 : List String}
    (h : ∀ x, x ∈ l1 ↔ x ∈ l2) :
    ∀ (ws : List ℚ) (seen : List String),
      generateConfigurationsAux c t l2 n ws seen =
        (generateConfigurationsAux c t l1 n ws seen).map
          fun cfg => { cfg with mustHaveCoverage := l2.length } := by
  intro ws
  induction ws with
  | nil => intro seen; rfl
  | cons w ws ih =>
    intro seen
    cases hf : findSolution c t l1 n w with
    | none =>
      have hf2 : findSolution c t l2 n w = none := by
        rw [findSolution_availMH_congr h w, hf]; rfl
      simp only [generateConfigurationsAux, hf, hf2]
      exact ih seen
    | some sol =>
      have hf2 : findSolution c t l2 n w =
          some { sol with mustHaveCoverage := l2.length } := by
        rw [findSolution_availMH_congr h w, hf]; rfl
      have hsig : ({ sol with mustHaveCoverage := l2.length } : Solution).signature =
          sol.signature := rfl
      simp only [generateConfigurationsAux, hf, hf2, hsig]
      by_cases hseen : seen.contains sol.signature
      · rw [if_pos hseen, if_pos hseen]
        exact ih seen
      · rw [if_neg hseen, if_neg hseen]
        rw [List.map_cons, ih (sol.signature :: seen)]
        rfl

attribute [local semireducible] Rat.mul Rat.add Rat.sub Rat.inv in
/-- Counterexample to C5: duplicating a must-have title changes the
response (must_have_coverage counts list entries, not distinct titles). -/
theorem optimizeServices_not_dedup_invariant :
    optimizeServices [⟨"netflix", "Netflix", 1, true⟩]
        [⟨"t1", [⟨"netflix", "Netflix", .Subscription, none, none⟩], 0⟩]
        ⟨["t1", "t1"], []⟩ =
      .ok ⟨[⟨[⟨"netflix", "Netflix", 1⟩], 1, 2, 0⟩], [], []⟩ ∧
    optimizeServices [⟨"netflix", "Netflix", 1, true⟩]
        [⟨"t1", [⟨"netflix", "Netflix", .Subscription, none, none⟩], 0⟩]
        ⟨["t1"], []⟩ =
      .ok ⟨[⟨[⟨"netflix", "Netflix", 1⟩], 1, 1, 0⟩], [], []⟩ ∧
    (2 : Nat) ≠ 1 := by
  refine ⟨by decide, by decide, by decide⟩

/-- C5 (amended): deduplicating must_have leaves every configuration of
the spectrum unchanged except for must_have_coverage, which becomes the
count over the deduplicated list, and leaves the unavailable must-have
list unchanged up to membership; coverage counts and the nice-to-have
bonus still count duplicate entries, so responses are not literally
invariant under deduplication. -/
theorem optimizer_mustHave_dedup_effect
    (serviceCatalog : List ServiceInfo)
    (titleToServices : List (String × List String))
    (mustHave niceToHave : List String) :
    generateConfigurations serviceCatalog titleToServices
        (mustHave.dedup.filter fun title =>
          (titleToServices.lookup title).isSome) niceToHave =
      (generateConfigurations serviceCatalog titleToServices
          (mustHave.filter fun title =>
            (titleToServices.lookup title).isSome) niceToHave).map
        (fun cfg => { cfg with mustHaveCoverage :=
          (mustHave.dedup.filter fun title =>
            (titleToServices.lookup title).isSome).length }) ∧
    ∀ t : String,
      (t ∈ mustHave.filter fun title =>
        (titleToServices.lookup title).isNone) ↔
      (t ∈ mustHave.dedup.filter fun title =>
        (titleToServices.lookup title).isNone) := by
  constructor
  · exact generateConfigurationsAux_availMH_congr
      (by intro x; simp [List.mem_filter, List.mem_dedup]) optimizationWeights []
  · intro t
    simp [List.mem_filter, List.mem_dedup]

/-- C5 (amended): for any two successful runs of optimize_services on the
same data, one with must_have deduplicated, the configurations agree
except that must_have_coverage becomes the count over the deduplicated
available list; the unavailable must-have lists agree up to membership and
the unavailable nice-to-have lists are equal.  Coverage counts (and the
nice-to-have objective bonus) still count duplicate entries, so responses
are not literally invariant under deduplication. -/
theorem optimizeServices_mustHave_dedup_effect
    (db : List DbServiceRow) (avail : List OptStreamingAvailability)
    (mustHave nice : List String) (resp1 resp2 : OptimizationResponse)
    (h1 : optimizeServices db avail ⟨mustHave, nice⟩ = .ok resp1)
    (h2 : optimizeServices db avail ⟨mustHave.dedup, nice⟩ = .ok resp2) :
    resp2.configurations = resp1.configurations.map
        (fun cfg => { cfg with mustHaveCoverage :=
          (mustHave.dedup.filter fun t =>
            ((buildTitleToServices avail).lookup t).isSome).length }) ∧
    (∀ t : String, t ∈ resp2.unavailableMustHave ↔ t ∈ resp1.unavailableMustHave) ∧
    resp2.unavailableNiceToHave = resp1.unavailableNiceToHave := by
  unfold optimizeServices at h1 h2
  by_cases hA : (mustHave ++ nice).isEmpty = true
  · rw [if_pos hA] at h1; exact absurd h1 (by simp)
  have hA2 : ¬((mustHave.dedup ++ nice).isEmpty = true) := by
    intro hc
    apply hA
    rw [List.isEmpty_iff] at hc ⊢
    rcases List.append_eq_nil.mp hc with ⟨hd, hn⟩
    rw [List.append_eq_nil]
    exact ⟨(List.dedup_eq_nil mustHave).mp hd, hn⟩
  rw [if_neg hA] at h1
  rw [if_neg hA2] at h2
  by_cases hB : (fetchServicePricing db (serviceIdsSet avail)).isEmpty = true
  · rw [if_pos hB] at h1; exact absurd h1 (by simp)
  rw [if_neg hB] at h1 h2
  injection h1 with h1
  injection h2 with h2
  rw [← h1, ← h2]
  unfold solveOptimization
  simp only
  have hmemAvail : ∀ x : String,
      x ∈ (mustHave.filter fun t =>
        ((buildTitleToServices avail).lookup t).isSome) ↔
      x ∈ (mustHave.dedup.filter fun t =>
        ((buildTitleToServices avail).lookup t).isSome) := by
    intro x
    simp [List.mem_filter, List.mem_dedup]
  have hempty : (mustHave.dedup.filter fun t =>
      ((buildTitleToServices avail).lookup t).isSome).isEmpty =
      (mustHave.filter fun t =>
        ((buildTitleToServices avail).lookup t).isSome).isEmpty := by
    rw [Bool.eq_iff_iff, List.isEmpty_iff, List.isEmpty_iff]
    constructor
    · intro hnil
      rw [List.eq_nil_iff_forall_not_mem] at hnil ⊢
      intro x hx
      exact hnil x ((hmemAvail x).mp hx)
    · intro hnil
      rw [List.eq_nil_iff_forall_not_mem] at hnil ⊢
      intro x hx
      exact hnil x ((hmemAvail x).mpr hx)
  have hmustEmpty : mustHave.dedup.isEmpty = mustHave.isEmpty := by
    rw [Bool.eq_iff_iff, List.isEmpty_iff, List.isEmpty_iff]
    exact ⟨fun hd => (List.dedup_eq_nil mustHave).mp hd, fun hd => by rw [hd]; rfl⟩
  have hunav : ∀ t : String,
      (t ∈ mustHave.dedup.filter fun t =>
        ((buildTitleToServices avail).lookup t).isNone) ↔
      (t ∈ mustHave.filter fun t =>
        ((buildTitleToServices avail).lookup t).isNone) := by
    intro t
    simp [List.mem_filter, List.mem_dedup]
  rw [hempty, hmustEmpty]
  by_cases hC : ((mustHave.filter fun t =>
      ((buildTitleToServices avail).lookup t).isSome).isEmpty &&
      !mustHave.isEmpty) = true
  · rw [if_pos hC, if_pos hC]
    exact ⟨rfl, hunav, rfl⟩
  · rw [if_neg hC, if_neg hC]
    refine ⟨?_, hunav, rfl⟩
    exact generateConfigurationsAux_availMH_congr hmemAvail optimizationWeights []

attribute [local semireducible] Rat.mul Rat.add Rat.sub Rat.inv in
/-- Witness for the amended C5: duplicated and deduplicated must-have
requests on the same data relate exactly by the coverage-count
replacement. -/
theorem optimizeServices_mustHave_dedup_effect_witness :
    (OptimizationResponse.mk [⟨[⟨"netflix", "Netflix", 1⟩], 1, 1, 0⟩] []
        []).configurations =
      (OptimizationResponse.mk [⟨[⟨"netflix", "Netflix", 1⟩], 1, 2, 0⟩] []
        []).configurations.map
        (fun cfg => { cfg with mustHaveCoverage :=
          ((["t1", "t1"].dedup).filter fun t =>
            ((buildTitleToServices
              [⟨"t1", [⟨"netflix", "Netflix", .Subscription, none, none⟩],
                0⟩]).lookup t).isSome).length }) ∧
    (∀ t : String,
      t ∈ (OptimizationResponse.mk [⟨[⟨"netflix", "Netflix", 1⟩], 1, 1, 0⟩] []
        []).unavailableMustHave ↔
      t ∈ (OptimizationResponse.mk [⟨[⟨"netflix", "Netflix", 1⟩], 1, 2, 0⟩] []
        []).unavailableMustHave) ∧
    (OptimizationResponse.mk [⟨[⟨"netflix", "Netflix", 1⟩], 1, 1, 0⟩] []
        []).unavailableNiceToHave =
      (OptimizationResponse.mk [⟨[⟨"netflix", "Netflix", 1⟩], 1, 2, 0⟩] []
        []).unavailableNiceToHave :=
  optimizeServices_mustHave_dedup_effect
    [⟨"netflix", "Netflix", 1, true⟩]
    [⟨"t1", [⟨"netflix", "Netflix", .Subscription, none, none⟩], 0⟩]
    ["t1", "t1"] [] _ _ (by decide) (by decide)
